import Mathlib

/-!
Verification development for the content-addressed file storage core of the
ClovaLink backend (crate `clovalink-api`, module `handlers.rs`).

The catalog table `files_metadata` is modelled as a list of `FileRecord`s,
the object backend as a list of keys, and each request handler as a pure
function over these, translated statement by statement from the Rust source.
Identifiers (UUIDs in the source) are modelled as natural numbers, byte sizes
as integers (`i64` in the source), and role labels, names, paths and hashes
as strings.
-/

namespace ClovaLink

/-- Catalog row of the `files_metadata` table, with the columns the file
handlers read and write. -/
structure FileRecord where
  id : Nat
  tenantId : Nat
  departmentId : Option Nat
  parentPath : Option String
  name : String
  sizeBytes : Int
  isDirectory : Bool
  ownerId : Option Nat
  visibility : String
  contentHash : Option String
  storagePath : String
  isDeleted : Bool
  isLocked : Bool
  lockedBy : Option Nat
  lockRequiresRole : Option String
  isImmutable : Bool
  deriving Repr, DecidableEq

/-- Row of the `users` table as read by the access checks:
`department_id` and `allowed_department_ids`. -/
structure UserRow where
  departmentId : Option Nat
  allowedDepartmentIds : Option (List Nat)
  deriving Repr, DecidableEq

/-- The `SELECT department_id, allowed_department_ids FROM users WHERE id = $1`
lookup; an absent row behaves as `(None, None)` (the `unwrap_or` in the
source). -/
def lookupUser (users : List (Nat × UserRow)) (uid : Nat) : UserRow :=
  match users.find? (fun p => p.1 == uid) with
  | some p => p.2
  | none => ⟨none, none⟩

/-- The `SELECT ... FROM files_metadata WHERE id = $1 AND tenant_id = $2 AND
is_deleted = false` lookup used by the handlers. -/
def findLiveFile (catalog : List FileRecord) (fid tenant : Nat) : Option FileRecord :=
  catalog.find? (fun r => r.id == fid && r.tenantId == tenant && !r.isDeleted)

/-- The `has_required_role` computation inside `can_access_file`: the Rust
`match lock_requires_role.as_deref()` with arms for `"Manager"`, `"Admin"`,
`"SuperAdmin"`, a custom role label, and `None`, in that order. -/
def lockRoleSatisfied (required : Option String) (role : String) : Bool :=
  match required with
  | none => false
  | some req =>
    if req == "Manager" then role == "Manager"
    else if req == "Admin" then false
    else if req == "SuperAdmin" then false
    else role == req

/-- The lock check of `can_access_file`: a locked file is passable by the
locker, the owner, or an actor satisfying the lock's required role. -/
def lockGatePasses (f : FileRecord) (uid : Nat) (role : String) : Bool :=
  (f.lockedBy == some uid) || (f.ownerId == some uid) ||
    lockRoleSatisfied f.lockRequiresRole role

/-- The department check at the end of `can_access_file`: a file with no
department is company-wide; otherwise the user's primary department or one of
their additionally allowed departments must match. -/
def departmentAllows (f : FileRecord) (u : UserRow) : Bool :=
  match f.departmentId with
  | none => true
  | some d =>
    (u.departmentId == some d) ||
      (match u.allowedDepartmentIds with
       | some allowed => allowed.contains d
       | none => false)

/-- The body of `can_access_file` after the Admin and SuperAdmin bypass, for a
file record that was found: lock check, private-visibility check, share
tightening, then department check. -/
def canAccessRecord (f : FileRecord) (u : UserRow) (uid : Nat) (role action : String) : Bool :=
  if f.isLocked && !(lockGatePasses f uid role) then false
  else if f.visibility == "private" then f.ownerId == some uid
  else if action == "share" && !((f.ownerId == some uid) || role == "Manager") then false
  else departmentAllows f u

/-- The access decision function `can_access_file` of `handlers.rs`:
`SuperAdmin` and `Admin` return `Ok(true)` before the file is even fetched;
otherwise the file is looked up (NOT_FOUND error when absent) and
`canAccessRecord` decides. -/
def canAccessFile (catalog : List FileRecord) (users : List (Nat × UserRow))
    (fid tenant uid : Nat) (role action : String) : Except Unit Bool :=
  if role == "SuperAdmin" || role == "Admin" then Except.ok true
  else
    match findLiveFile catalog fid tenant with
    | none => Except.error ()
    | some f => Except.ok (canAccessRecord f (lookupUser users uid) uid role action)

/-- Role rank as the specification words it (super-admin > admin > manager >
employee > other); this definition follows the spec's words, not the source,
and is used only to state claims C2 and C3 against the code. -/
def roleRankSpec (role : String) : Nat :=
  if role == "SuperAdmin" then 4
  else if role == "Admin" then 3
  else if role == "Manager" then 2
  else if role == "Employee" then 1
  else 0

/-- A file locked with required role `SuperAdmin`, used as a concrete input
for claim C2. -/
def lockedSuperAdminFile : FileRecord :=
  { id := 1, tenantId := 10, departmentId := none, parentPath := none,
    name := "doc.txt", sizeBytes := 4, isDirectory := false, ownerId := some 5,
    visibility := "department", contentHash := some "aabb",
    storagePath := "10/private/aa/aabb", isDeleted := false, isLocked := true,
    lockedBy := some 5, lockRequiresRole := some "SuperAdmin", isImmutable := false }

/-- A file locked with required role `Employee`, used as a concrete input for
claim C3. -/
def lockedEmployeeFile : FileRecord :=
  { id := 2, tenantId := 10, departmentId := none, parentPath := none,
    name := "memo.txt", sizeBytes := 4, isDirectory := false, ownerId := some 5,
    visibility := "department", contentHash := some "ccdd",
    storagePath := "10/private/cc/ccdd", isDeleted := false, isLocked := true,
    lockedBy := some 5, lockRequiresRole := some "Employee", isImmutable := false }

/-- C2 counterexample: an actor with role `Admin` (rank below `SuperAdmin`)
reading a resource locked with explicit required role `SuperAdmin`, who is
neither the locker nor the owner, is ALLOWED by `can_access_file` — the
Admin/SuperAdmin bypass returns before the lock is consulted — whereas the
claim says such an actor is denied. -/
theorem admin_bypass_lock_counterexample :
    roleRankSpec "Admin" < roleRankSpec "SuperAdmin" ∧
    canAccessFile [lockedSuperAdminFile] [] 1 10 7 "Admin" "read" = Except.ok true :=
  ⟨by decide, rfl⟩

/-- C2 (amended): an actor whose role is `Admin` or `SuperAdmin` is allowed on
every access decision — read, write, delete or share — unconditionally: the
bypass in `can_access_file` is not subject to any lock or required-role
exception. -/
theorem admin_bypass_unconditional
    (catalog : List FileRecord) (users : List (Nat × UserRow))
    (fid tenant uid : Nat) (role action : String)
    (h : role = "SuperAdmin" ∨ role = "Admin") :
    canAccessFile catalog users fid tenant uid role action = Except.ok true := by
  rcases h with h | h <;> subst h <;> rfl

/-- C2 (amended) witness: the amended theorem evaluated at the concrete
locked-with-SuperAdmin file for an `Admin` actor. -/
theorem admin_bypass_unconditional_witness :
    canAccessFile [lockedSuperAdminFile] [] 1 10 9 "Admin" "write" = Except.ok true :=
  admin_bypass_unconditional [lockedSuperAdminFile] [] 1 10 9 "Admin" "write" (Or.inr rfl)

/-- C3 counterexample: a `Manager` (rank strictly above `Employee`), neither
locker nor owner, reading a department-wide file locked with required role
`Employee`, is DENIED by `can_access_file` — the code compares role labels for
equality, not rank — whereas the claim says rank ≥ required rank is allowed. -/
theorem lock_gate_rank_counterexample :
    roleRankSpec "Manager" > roleRankSpec "Employee" ∧
    canAccessFile [lockedEmployeeFile] [] 2 10 7 "Manager" "read" = Except.ok false :=
  ⟨by decide, rfl⟩

/-- The visibility and department checks that follow the lock gate on the read
path of `can_access_file` (the share tightening does not apply to reads). -/
def postLockRead (f : FileRecord) (u : UserRow) (uid : Nat) : Bool :=
  if f.visibility == "private" then f.ownerId == some uid
  else departmentAllows f u

/-- For a role other than Admin and SuperAdmin, the lock's role arm holds
exactly when the required label equals the actor's label. -/
theorem lockRoleSatisfied_eq_label (required : Option String) (role : String)
    (hA : role ≠ "Admin") (hS : role ≠ "SuperAdmin") :
    lockRoleSatisfied required role = true ↔ required = some role := by
  cases required with
  | none => simp [lockRoleSatisfied]
  | some req =>
    simp only [lockRoleSatisfied]
    split_ifs with h1 h2 h3
    · rw [beq_iff_eq] at h1
      subst h1
      simp only [beq_iff_eq, Option.some.injEq]
      exact ⟨Eq.symm, Eq.symm⟩
    · rw [beq_iff_eq] at h2
      subst h2
      constructor
      · intro h; simp at h
      · intro h; exact absurd (Option.some.inj h).symm hA
    · rw [beq_iff_eq] at h3
      subst h3
      constructor
      · intro h; simp at h
      · intro h; exact absurd (Option.some.inj h).symm hS
    · simp only [beq_iff_eq, Option.some.injEq]
      exact ⟨Eq.symm, Eq.symm⟩

/-- On a locked record, the post-bypass access decision on a read is the
conjunction of the lock gate and the visibility and department checks. -/
theorem canAccessRecord_locked_read (f : FileRecord) (u : UserRow) (uid : Nat) (role : String)
    (hlock : f.isLocked = true) :
    canAccessRecord f u uid role "read" =
      (lockGatePasses f uid role && postLockRead f u uid) := by
  rw [canAccessRecord, hlock]
  cases hg : lockGatePasses f uid role with
  | false => simp [postLockRead]
  | true => simp [postLockRead]

/-- C3 (amended): on a locked resource found in the catalog, the read decision
of `can_access_file` allows exactly when the actor's role is `Admin` or
`SuperAdmin` (unconditional bypass), or the actor is the locker or the owner
or the lock's required-role label EQUALS the actor's role label (no rank
order; a lock requiring `Admin` or `SuperAdmin` is passable only through the
bypass), and in the latter cases the visibility and department checks that
follow the lock gate also pass. -/
theorem lock_gate_exact_label
    (catalog : List FileRecord) (users : List (Nat × UserRow))
    (fid tenant uid : Nat) (role : String) (f : FileRecord)
    (hf : findLiveFile catalog fid tenant = some f)
    (hlock : f.isLocked = true) :
    canAccessFile catalog users fid tenant uid role "read" = Except.ok true ↔
      (role = "SuperAdmin" ∨ role = "Admin" ∨
        ((f.lockedBy = some uid ∨ f.ownerId = some uid ∨ f.lockRequiresRole = some role) ∧
          postLockRead f (lookupUser users uid) uid = true)) := by
  rcases Decidable.em (role = "SuperAdmin" ∨ role = "Admin") with hadm | hadm
  · have hb : (role == "SuperAdmin" || role == "Admin") = true := by
      rcases hadm with h | h <;> simp [h]
    rw [canAccessFile, if_pos hb]
    constructor
    · intro _
      rcases hadm with h | h
      · exact Or.inl h
      · exact Or.inr (Or.inl h)
    · intro _; rfl
  · push_neg at hadm
    obtain ⟨hS, hA⟩ := hadm
    have hb : ¬((role == "SuperAdmin" || role == "Admin") = true) := by
      simp [hS, hA]
    have hmain : canAccessFile catalog users fid tenant uid role "read" =
        Except.ok (canAccessRecord f (lookupUser users uid) uid role "read") := by
      rw [canAccessFile, if_neg hb, hf]
    have hgate : lockGatePasses f uid role = true ↔
        (f.lockedBy = some uid ∨ f.ownerId = some uid ∨ f.lockRequiresRole = some role) := by
      simp only [lockGatePasses, Bool.or_eq_true, beq_iff_eq,
        lockRoleSatisfied_eq_label f.lockRequiresRole role hA hS, or_assoc]
    rw [hmain, canAccessRecord_locked_read f (lookupUser users uid) uid role hlock]
    simp only [Except.ok.injEq, Bool.and_eq_true, hgate]
    constructor
    · rintro ⟨h1, h2⟩
      exact Or.inr (Or.inr ⟨h1, h2⟩)
    · rintro (h | h | ⟨h1, h2⟩)
      · exact absurd h hS
      · exact absurd h hA
      · exact ⟨h1, h2⟩

/-- C3 (amended) witness: the amended characterization evaluated on the
concrete `Employee`-locked file, for an `Employee` actor matching the lock's
required label: the decision is allow. -/
theorem lock_gate_exact_label_witness :
    canAccessFile [lockedEmployeeFile] [] 2 10 7 "Employee" "read" = Except.ok true :=
  (lock_gate_exact_label [lockedEmployeeFile] [] 2 10 7 "Employee"
      lockedEmployeeFile rfl rfl).mpr
    (Or.inr (Or.inr ⟨Or.inr (Or.inr rfl), rfl⟩))

/-! ## Permanent deletion (`permanent_delete`) -/

/-- The `SELECT ... WHERE id = $1 AND tenant_id = $2 AND is_deleted = true`
lookup of `permanent_delete` and `restore_file`: the record must be in the
trash. -/
def findTrashed (catalog : List FileRecord) (fid tenant : Nat) : Option FileRecord :=
  catalog.find? (fun r => r.id == fid && r.tenantId == tenant && r.isDeleted)

/-- Effective folder path of a record: `parent_path + "/" + name`, with the
empty-parent special case, as computed by `permanent_delete`, `restore_file`
and `rename_file`. -/
def folderPathOf (pp : Option String) (name : String) : String :=
  match pp with
  | some p => if p == "" then name else p ++ "/" ++ name
  | none => name

/-- The SQL pattern `parent_path LIKE folderPath || slash || percent`: the
record's parent path starts with the folder path followed by a slash (NULL
parent paths never match). -/
def underFolder (folderPath : String) (pp : Option String) : Bool :=
  match pp with
  | some p => (folderPath ++ "/").toList.isPrefixOf p.toList
  | none => false

/-- The reference count of `permanent_delete`:
`SELECT COUNT( asterisk ) FROM files_metadata WHERE content_hash = $1 AND
id != $2 AND is_directory = false`. Note that the query has NO
`is_deleted = false` condition and NO tenant or department condition. -/
def refCountOthers (catalog : List FileRecord) (hash : String) (fid : Nat) : Nat :=
  (catalog.filter (fun r => r.contentHash == some hash && r.id != fid && !r.isDirectory)).length

/-- The `should_delete_storage` computation of `permanent_delete`: a record
with a content hash frees its backend object only when no other non-directory
row shares the hash; directories never do. -/
def shouldDeleteStorage (catalog : List FileRecord) (fid : Nat) (fhash : Option String) : Bool :=
  match fhash with
  | some h => refCountOthers catalog h fid == 0
  | none => false

/-- Catalog state plus the backend delete operations issued so far. -/
structure DeleteOutcome where
  catalog : List FileRecord
  backendDeletes : List String
  deriving Repr, DecidableEq

/-- One iteration of the `permanent_delete` loop over `files_to_delete`:
compute the reference count against the current catalog, delete the catalog
row (`WHERE id = $1 AND tenant_id = $2`), then issue a backend delete when the
count was zero and the storage path is nonempty. -/
def permanentDeleteStep (tenant : Nat) (acc : DeleteOutcome)
    (entry : Nat × Option String × String) : DeleteOutcome :=
  let fid := entry.1
  let fhash := entry.2.1
  let fstorage := entry.2.2
  let shouldDel := shouldDeleteStorage acc.catalog fid fhash
  let catalog1 := acc.catalog.filter (fun r => !(r.id == fid && r.tenantId == tenant))
  if shouldDel && fstorage != "" then ⟨catalog1, acc.backendDeletes ++ [fstorage]⟩
  else ⟨catalog1, acc.backendDeletes⟩

/-- The trashed descendants of a folder gathered by `permanent_delete`
(`WHERE tenant_id = $1 AND is_deleted = true AND (parent_path = $2 OR
parent_path LIKE $3)`). -/
def trashedDescendants (catalog : List FileRecord) (tenant : Nat) (folderPath : String) :
    List FileRecord :=
  catalog.filter (fun r => r.tenantId == tenant && r.isDeleted &&
    ((r.parentPath == some folderPath) || underFolder folderPath r.parentPath))

/-- The `permanent_delete` handler: tenant check, trashed-record lookup,
collection of the records to delete (the record itself plus, for directories,
every trashed descendant), then the dedupe-aware deletion loop. -/
def permanentDelete (catalog : List FileRecord) (authTenant : Nat) (authRole : String)
    (tenant fid : Nat) : Except Unit DeleteOutcome :=
  if authRole != "SuperAdmin" && authTenant != tenant then Except.error ()
  else
    match findTrashed catalog fid tenant with
    | none => Except.error ()
    | some f =>
      let entries :=
        if f.isDirectory then
          (f.id, f.contentHash, f.storagePath) ::
            (trashedDescendants catalog tenant (folderPathOf f.parentPath f.name)).map
              (fun r => (r.id, r.contentHash, r.storagePath))
        else [(f.id, f.contentHash, f.storagePath)]
      Except.ok (entries.foldl (permanentDeleteStep tenant) ⟨catalog, []⟩)

/-- The records the claim regards as keeping the backend object alive: LIVE
records in the SAME tenant and department as R, other than R, sharing R's
content hash. This definition follows the claim's words, not the source, and
exists only to state claim C1 against the code. -/
def liveScopeOthersSpec (catalog : List FileRecord) (r : FileRecord) : List FileRecord :=
  catalog.filter (fun x => !x.isDeleted && x.tenantId == r.tenantId &&
    x.departmentId == r.departmentId && x.contentHash == r.contentHash &&
    x.id != r.id && !x.isDirectory)

/-- A trashed record whose backend object the C1 claim says must be freed. -/
def permDelRecordR : FileRecord :=
  { id := 1, tenantId := 10, departmentId := some 20, parentPath := none,
    name := "a.txt", sizeBytes := 4, isDirectory := false, ownerId := some 5,
    visibility := "department", contentHash := some "eeff",
    storagePath := "10/20/ee/eeff", isDeleted := true, isLocked := false,
    lockedBy := none, lockRequiresRole := none, isImmutable := false }

/-- A soft-deleted sibling of `permDelRecordR` in the same scope with the same
content hash. -/
def permDelRecordS : FileRecord :=
  { id := 2, tenantId := 10, departmentId := some 20, parentPath := none,
    name := "b.txt", sizeBytes := 4, isDirectory := false, ownerId := some 5,
    visibility := "department", contentHash := some "eeff",
    storagePath := "10/20/ee/eeff", isDeleted := true, isLocked := false,
    lockedBy := none, lockRequiresRole := none, isImmutable := false }

/-- C1 counterexample: record R is permanently deleted while the only other
record sharing its content hash is SOFT-DELETED (so no LIVE record in R's
scope references the hash, and the claim says the backend object must then be
gone), yet the code issues NO backend delete: its reference count ignores the
`is_deleted` flag (and the tenant/department scope), so the soft-deleted
sibling keeps the object alive. -/
theorem permanent_delete_refcount_counterexample :
    liveScopeOthersSpec [permDelRecordR, permDelRecordS] permDelRecordR = [] ∧
    permDelRecordR.storagePath ≠ "" ∧
    permanentDelete [permDelRecordR, permDelRecordS] 10 "Employee" 10 1 =
      Except.ok ⟨[permDelRecordS], []⟩ :=
  ⟨rfl, by decide, rfl⟩

/-- C1 (amended): for a permanent-delete of a trashed non-directory record R,
the backend object at R's storage key is deleted if and only if R's storage
path is nonempty and NO other non-directory catalog row — live or
soft-deleted, in ANY tenant and department — references R's content hash; in
that case exactly R's key is deleted, otherwise no backend delete is issued. -/
theorem permanent_delete_storage_iff
    (catalog : List FileRecord) (authTenant tenant fid : Nat) (authRole : String)
    (f : FileRecord)
    (hauth : authRole = "SuperAdmin" ∨ authTenant = tenant)
    (hfind : findTrashed catalog fid tenant = some f)
    (hdir : f.isDirectory = false) :
    ∃ out, permanentDelete catalog authTenant authRole tenant fid = Except.ok out ∧
      out.backendDeletes =
        (if shouldDeleteStorage catalog f.id f.contentHash && f.storagePath != ""
          then [f.storagePath] else []) ∧
      (shouldDeleteStorage catalog f.id f.contentHash = true ↔
        ∃ h, f.contentHash = some h ∧ refCountOthers catalog h f.id = 0) := by
  have hcond : ¬((authRole != "SuperAdmin" && authTenant != tenant) = true) := by
    rcases hauth with h | h <;> simp [h]
  refine ⟨?_, ?_, ?_, ?_⟩
  · exact (permanentDeleteStep tenant ⟨catalog, []⟩ (f.id, f.contentHash, f.storagePath))
  · rw [permanentDelete, if_neg hcond, hfind]
    simp only [hdir, Bool.false_eq_true, if_false, List.foldl_cons, List.foldl_nil]
  · by_cases hs : (shouldDeleteStorage catalog f.id f.contentHash && f.storagePath != "") = true
    · simp [permanentDeleteStep, hs]
    · simp [permanentDeleteStep, hs]
  · cases hh : f.contentHash with
    | none => simp [shouldDeleteStorage]
    | some h => simp [shouldDeleteStorage]

/-- A trashed record that is the only reference to its content hash, used to
witness the amended C1 theorem on the deleting branch. -/
def permDelSolo : FileRecord :=
  { id := 3, tenantId := 10, departmentId := some 20, parentPath := none,
    name := "c.txt", sizeBytes := 4, isDirectory := false, ownerId := some 5,
    visibility := "department", contentHash := some "0011",
    storagePath := "10/20/00/0011", isDeleted := true, isLocked := false,
    lockedBy := none, lockRequiresRole := none, isImmutable := false }

/-- C1 (amended) witness: the amended theorem evaluated on a catalog where the
record is the sole reference to its hash — the backend delete is issued. -/
theorem permanent_delete_storage_iff_witness :
    ∃ out, permanentDelete [permDelSolo] 10 "Employee" 10 3 = Except.ok out ∧
      out.backendDeletes =
        (if shouldDeleteStorage [permDelSolo] permDelSolo.id permDelSolo.contentHash &&
            permDelSolo.storagePath != "" then [permDelSolo.storagePath] else []) ∧
      (shouldDeleteStorage [permDelSolo] permDelSolo.id permDelSolo.contentHash = true ↔
        ∃ h, permDelSolo.contentHash = some h ∧ refCountOthers [permDelSolo] h permDelSolo.id = 0) :=
  permanent_delete_storage_iff [permDelSolo] 10 10 3 "Employee" permDelSolo
    (Or.inr rfl) rfl rfl

/-! ## Upload ingest (`upload_file`): streaming, limits, dedup, commit -/

/-- Tenant-wide storage usage as computed by the quota check of `upload_file`:
`SELECT COALESCE(SUM(size_bytes), 0) FROM files_metadata WHERE tenant_id = $1
AND is_deleted = false AND is_directory = false`. -/
def storageUsage (catalog : List FileRecord) (tenant : Nat) : Int :=
  ((catalog.filter (fun r => r.tenantId == tenant && !r.isDeleted && !r.isDirectory)).map
    (fun r => r.sizeBytes)).sum

/-- Total byte size of a list of chunks. -/
def chunkSizeSum (chunks : List Nat) : Int :=
  (chunks.map (fun (c : Nat) => (c : Int))).sum

/-- The `while let Some(chunk) = field.chunk()` loop of `upload_file`: every
chunk is pulled, hashed and appended to the scratch file, accumulating the
running size and the number of chunks consumed. NO limit is consulted inside
the loop. -/
def streamAllChunks (chunks : List Nat) : Int × Nat :=
  chunks.foldl (fun (acc : Int × Nat) (c : Nat) => (acc.1 + (c : Int), acc.2 + 1)) (0, 0)

/-- Outcome of the post-stream limit checks of `upload_file`. -/
inductive IngestOutcome where
  | tooLarge
  | quotaExceeded
  | proceed
  deriving Repr, DecidableEq

/-- Observable trace of the streaming-and-limits phase of `upload_file`. -/
structure IngestTrace where
  chunksConsumed : Nat
  size : Int
  tempRemoved : Bool
  outcome : IngestOutcome
  deriving Repr, DecidableEq

/-- The storage-quota check of `upload_file`, reached when the max-size check
passed: `current_storage + size > storage_quota` aborts with quota-exceeded
after removing the scratch file. -/
def uploadQuotaCheck (consumed : Nat) (size : Int) (quota : Option Int) (currentUsage : Int) :
    IngestTrace :=
  match quota with
  | some q =>
    if currentUsage + size > q then ⟨consumed, size, true, IngestOutcome.quotaExceeded⟩
    else ⟨consumed, size, true, IngestOutcome.proceed⟩
  | none => ⟨consumed, size, true, IngestOutcome.proceed⟩

/-- The streaming phase of `upload_file` followed by its two limit checks:
the whole body is streamed to the scratch file first; only after EOF are the
tenant's `max_upload_size_bytes` (first) and `storage_quota_bytes` (second)
compared against the final size. The scratch file is removed on every path
(abort paths immediately, the proceed path after the backend upload). -/
def uploadIngest (chunks : List Nat) (limits : Option (Option Int × Option Int))
    (catalog : List FileRecord) (tenant : Nat) : IngestTrace :=
  let s := streamAllChunks chunks
  match limits with
  | none => ⟨s.2, s.1, true, IngestOutcome.proceed⟩
  | some (quota, maxUpload) =>
    match maxUpload with
    | some m =>
      if s.1 > m then ⟨s.2, s.1, true, IngestOutcome.tooLarge⟩
      else uploadQuotaCheck s.2 s.1 quota (storageUsage catalog tenant)
    | none => uploadQuotaCheck s.2 s.1 quota (storageUsage catalog tenant)

/-- The streaming loop computes the total size and consumes every chunk. -/
theorem streamAllChunks_go (chunks : List Nat) (s : Int) (n : Nat) :
    chunks.foldl (fun (acc : Int × Nat) (c : Nat) => (acc.1 + (c : Int), acc.2 + 1)) (s, n) =
      (s + chunkSizeSum chunks, n + chunks.length) := by
  induction chunks generalizing s n with
  | nil => simp [chunkSizeSum]
  | cons c cs ih =>
    rw [List.foldl_cons, ih]
    simp only [Prod.mk.injEq, chunkSizeSum, List.map_cons, List.sum_cons, List.length_cons]
    constructor
    · ring
    · omega

/-- The streaming loop, started from zero. -/
theorem streamAllChunks_eq (chunks : List Nat) :
    streamAllChunks chunks = (chunkSizeSum chunks, chunks.length) := by
  rw [streamAllChunks, streamAllChunks_go]
  simp

/-- C5 counterexample: with a max-upload-size of 4 bytes, the first chunk
alone (5 bytes) already exceeds the limit, so a check against the running
size would cut the stream short after one chunk; the code consumes BOTH
chunks (the whole stream) before any limit is looked at, and only then
reports too-large. -/
theorem upload_running_size_counterexample :
    (uploadIngest [5, 3] (some (none, some 4)) [] 10).chunksConsumed = 2 ∧
    (5 : Int) > 4 ∧
    (uploadIngest [5, 3] (some (none, some 4)) [] 10).outcome = IngestOutcome.tooLarge :=
  ⟨rfl, by decide, rfl⟩

/-- C5 (amended): the per-tenant max-upload-size and storage-quota limits are
checked once, after the byte stream has been fully consumed, against the
final size: the stream is never cut short. The max check fires exactly when
the final size strictly exceeds the max (so an upload of exactly
max-upload-size passes and max + 1 fails with too-large); the quota check
fires exactly when the max check passed and current usage plus the final size
strictly exceeds the quota; each abort removes the scratch file. -/
theorem upload_limits_checked_after_eof (chunks : List Nat) (quota maxUpload : Option Int)
    (catalog : List FileRecord) (tenant : Nat) :
    (uploadIngest chunks (some (quota, maxUpload)) catalog tenant).chunksConsumed =
        chunks.length ∧
    (uploadIngest chunks (some (quota, maxUpload)) catalog tenant).size = chunkSizeSum chunks ∧
    (uploadIngest chunks (some (quota, maxUpload)) catalog tenant).tempRemoved = true ∧
    ((uploadIngest chunks (some (quota, maxUpload)) catalog tenant).outcome =
        IngestOutcome.tooLarge ↔
      ∃ m, maxUpload = some m ∧ chunkSizeSum chunks > m) ∧
    ((uploadIngest chunks (some (quota, maxUpload)) catalog tenant).outcome =
        IngestOutcome.quotaExceeded ↔
      (∀ m, maxUpload = some m → chunkSizeSum chunks ≤ m) ∧
        ∃ q, quota = some q ∧ storageUsage catalog tenant + chunkSizeSum chunks > q) := by
  have hst : streamAllChunks chunks = (chunkSizeSum chunks, chunks.length) :=
    streamAllChunks_eq chunks
  rcases maxUpload with _ | m
  · rcases quota with _ | q
    · have htr : uploadIngest chunks (some (none, none)) catalog tenant =
          ⟨chunks.length, chunkSizeSum chunks, true, IngestOutcome.proceed⟩ := by
        simp only [uploadIngest, hst, uploadQuotaCheck]
      rw [htr]
      refine ⟨rfl, rfl, rfl, ?_, ?_⟩
      · constructor
        · intro h; exact IngestOutcome.noConfusion h
        · rintro ⟨m2, hm2, _⟩; exact Option.noConfusion hm2
      · constructor
        · intro h; exact IngestOutcome.noConfusion h
        · rintro ⟨_, q2, hq2, _⟩; exact Option.noConfusion hq2
    · by_cases hq : storageUsage catalog tenant + chunkSizeSum chunks > q
      · have htr : uploadIngest chunks (some (some q, none)) catalog tenant =
            ⟨chunks.length, chunkSizeSum chunks, true, IngestOutcome.quotaExceeded⟩ := by
          simp only [uploadIngest, hst, uploadQuotaCheck]
          rw [if_pos hq]
        rw [htr]
        refine ⟨rfl, rfl, rfl, ?_, ?_⟩
        · constructor
          · intro h; exact IngestOutcome.noConfusion h
          · rintro ⟨m2, hm2, _⟩; exact Option.noConfusion hm2
        · constructor
          · intro _; exact ⟨fun m2 hm2 => Option.noConfusion hm2, q, rfl, hq⟩
          · intro _; rfl
      · have htr : uploadIngest chunks (some (some q, none)) catalog tenant =
            ⟨chunks.length, chunkSizeSum chunks, true, IngestOutcome.proceed⟩ := by
          simp only [uploadIngest, hst, uploadQuotaCheck]
          rw [if_neg hq]
        rw [htr]
        refine ⟨rfl, rfl, rfl, ?_, ?_⟩
        · constructor
          · intro h; exact IngestOutcome.noConfusion h
          · rintro ⟨m2, hm2, _⟩; exact Option.noConfusion hm2
        · constructor
          · intro h; exact IngestOutcome.noConfusion h
          · rintro ⟨_, q2, hq2, hgt⟩
            cases hq2
            exact absurd hgt hq
  · by_cases hm : chunkSizeSum chunks > m
    · have htr : uploadIngest chunks (some (quota, some m)) catalog tenant =
          ⟨chunks.length, chunkSizeSum chunks, true, IngestOutcome.tooLarge⟩ := by
        simp only [uploadIngest, hst]
        rw [if_pos hm]
      rw [htr]
      refine ⟨rfl, rfl, rfl, ?_, ?_⟩
      · constructor
        · intro _; exact ⟨m, rfl, hm⟩
        · intro _; rfl
      · constructor
        · intro h; exact IngestOutcome.noConfusion h
        · rintro ⟨hall, _⟩
          exact absurd hm (not_lt.mpr (hall m rfl))
    · rcases quota with _ | q
      · have htr : uploadIngest chunks (some (none, some m)) catalog tenant =
            ⟨chunks.length, chunkSizeSum chunks, true, IngestOutcome.proceed⟩ := by
          simp only [uploadIngest, hst]
          rw [if_neg hm]
          simp only [uploadQuotaCheck]
        rw [htr]
        refine ⟨rfl, rfl, rfl, ?_, ?_⟩
        · constructor
          · intro h; exact IngestOutcome.noConfusion h
          · rintro ⟨m2, hm2, hgt⟩
            cases hm2
            exact absurd hgt hm
        · constructor
          · intro h; exact IngestOutcome.noConfusion h
          · rintro ⟨_, q2, hq2, _⟩; exact Option.noConfusion hq2
      · by_cases hq : storageUsage catalog tenant + chunkSizeSum chunks > q
        · have htr : uploadIngest chunks (some (some q, some m)) catalog tenant =
              ⟨chunks.length, chunkSizeSum chunks, true, IngestOutcome.quotaExceeded⟩ := by
            simp only [uploadIngest, hst]
            rw [if_neg hm]
            simp only [uploadQuotaCheck]
            rw [if_pos hq]
          rw [htr]
          refine ⟨rfl, rfl, rfl, ?_, ?_⟩
          · constructor
            · intro h; exact IngestOutcome.noConfusion h
            · rintro ⟨m2, hm2, hgt⟩
              cases hm2
              exact absurd hgt hm
          · constructor
            · intro _
              refine ⟨?_, q, rfl, hq⟩
              rintro m2 hm2
              cases hm2
              exact not_lt.mp hm
            · intro _; rfl
        · have htr : uploadIngest chunks (some (some q, some m)) catalog tenant =
              ⟨chunks.length, chunkSizeSum chunks, true, IngestOutcome.proceed⟩ := by
            simp only [uploadIngest, hst]
            rw [if_neg hm]
            simp only [uploadQuotaCheck]
            rw [if_neg hq]
          rw [htr]
          refine ⟨rfl, rfl, rfl, ?_, ?_⟩
          · constructor
            · intro h; exact IngestOutcome.noConfusion h
            · rintro ⟨m2, hm2, hgt⟩
              cases hm2
              exact absurd hgt hm
          · constructor
            · intro h; exact IngestOutcome.noConfusion h
            · rintro ⟨_, q2, hq2, hgt⟩
              cases hq2
              exact absurd hgt hq

/-- Department segment of the content-addressed key:
`department_id` or the literal string `private`. -/
def deptScope (dept : Option Nat) : String :=
  match dept with
  | some d => toString d
  | none => "private"

/-- The content-addressed storage key built by `upload_file`:
tenant slash department-or-private slash 2-character hash shard slash full
hash. -/
def contentKeyFor (tenant : Nat) (dept : Option Nat) (hash : String) : String :=
  toString tenant ++ "/" ++ deptScope dept ++ "/" ++ hash.take 2 ++ "/" ++ hash

/-- The dedup probe of `upload_file`:
`SELECT storage_path FROM files_metadata WHERE tenant_id = $1 AND
department_id IS NOT DISTINCT FROM $2 AND content_hash = $3 AND
is_deleted = false AND is_directory = false LIMIT 1`. -/
def dedupProbe (catalog : List FileRecord) (tenant : Nat) (dept : Option Nat) (hash : String) :
    Option String :=
  (catalog.find? (fun r => r.tenantId == tenant && r.departmentId == dept &&
    r.contentHash == some hash && !r.isDeleted && !r.isDirectory)).map
    (fun r => r.storagePath)

/-- Key chosen for the new record, backend puts issued, and the dedup flag. -/
structure CommitResult where
  key : String
  backendPuts : List String
  dedupHit : Bool
  deriving Repr, DecidableEq

/-- The commit decision of `upload_file`: when the catalog probe finds a live
in-scope record with the same hash, its storage path is reused and no backend
upload happens; otherwise `upload_from_path` is called on the
content-addressed key. The backend state is passed but — exactly as in the
code, which performs no existence check against the object store — never
consulted. -/
def uploadCommit (catalog : List FileRecord) (backend : List String) (tenant : Nat)
    (dept : Option Nat) (hash : String) : CommitResult :=
  match dedupProbe catalog tenant dept hash with
  | some existingPath => ⟨existingPath, [], true⟩
  | none => ⟨contentKeyFor tenant dept hash, [contentKeyFor tenant dept hash], false⟩

/-- The content key of an orphan object used as a concrete input for C4. -/
def orphanKey : String := contentKeyFor 10 (some 20) "abcd"

/-- C4 counterexample: the backend already holds an object at the
content-addressed key (an orphan from a crash between the backend commit and
the catalog insert) while the catalog has no row for the hash; the claim says
the ingest pipeline finds the object via an existence check and reuses it with
no second backend put, but the code — which decides purely on the catalog
probe — issues a (second) put to that same key and reports no dedup hit. -/
theorem upload_ignores_backend_counterexample :
    orphanKey ∈ [orphanKey] ∧
    (uploadCommit [] [orphanKey] 10 (some 20) "abcd").backendPuts = [orphanKey] ∧
    (uploadCommit [] [orphanKey] 10 (some 20) "abcd").dedupHit = false :=
  ⟨List.mem_singleton.mpr rfl, rfl, rfl⟩

/-- C4 (amended): whether the upload performs a backend put is decided purely
by the catalog dedup probe: whenever no live in-scope record carries the hash,
a put to the content-addressed key is issued REGARDLESS of the backend's
contents — an orphan object at that key is overwritten by the (idempotent)
put rather than detected and reused. -/
theorem upload_put_decided_by_catalog
    (catalog : List FileRecord) (backend : List String) (tenant : Nat) (dept : Option Nat)
    (hash : String)
    (h : dedupProbe catalog tenant dept hash = none) :
    (uploadCommit catalog backend tenant dept hash).backendPuts =
        [contentKeyFor tenant dept hash] ∧
    (uploadCommit catalog backend tenant dept hash).dedupHit = false := by
  simp [uploadCommit, h]

/-- C4 (amended) witness: the amended theorem evaluated with the orphan key
already present in the backend: the put is issued anyway. -/
theorem upload_put_decided_by_catalog_witness :
    (uploadCommit [] [contentKeyFor 10 (some 21) "beef"] 10 (some 21) "beef").backendPuts =
        [contentKeyFor 10 (some 21) "beef"] ∧
    (uploadCommit [] [contentKeyFor 10 (some 21) "beef"] 10 (some 21) "beef").dedupHit = false :=
  upload_put_decided_by_catalog [] [contentKeyFor 10 (some 21) "beef"] 10 (some 21) "beef" rfl

/-- Splitting the tenant storage-usage sum at the head record. -/
theorem storageUsage_cons (r : FileRecord) (catalog : List FileRecord) (tenant : Nat) :
    storageUsage (r :: catalog) tenant =
      (if r.tenantId == tenant && !r.isDeleted && !r.isDirectory then r.sizeBytes else 0) +
        storageUsage catalog tenant := by
  rw [storageUsage, storageUsage, List.filter_cons]
  by_cases h : (r.tenantId == tenant && !r.isDeleted && !r.isDirectory) = true
  · rw [if_pos h, if_pos h, List.map_cons, List.sum_cons]
  · rw [if_neg h, if_neg h, zero_add]

/-- C10: the quota usage of `upload_file` sums `size_bytes` over the live
non-directory records of the tenant: a block of `k` live records referencing
the SAME content hash (stored once in the backend) is charged `k` times its
size — deduplication does not reduce quota usage — and a soft-deleted record
contributes nothing even though its backend object persists. -/
theorem quota_counts_each_live_record
    (catalog : List FileRecord) (tenant : Nat) (r : FileRecord) (l : List FileRecord)
    (hl : ∀ x ∈ l, x.tenantId = tenant ∧ x.isDeleted = false ∧ x.isDirectory = false ∧
      x.contentHash = r.contentHash ∧ x.sizeBytes = r.sizeBytes) :
    storageUsage (l ++ catalog) tenant =
        (l.length : Int) * r.sizeBytes + storageUsage catalog tenant ∧
    (r.isDeleted = true → storageUsage (r :: catalog) tenant = storageUsage catalog tenant) := by
  constructor
  · induction l with
    | nil => simp
    | cons x xs ih =>
      obtain ⟨ht, hd, hdir, _, hs⟩ := hl x (List.mem_cons_self x xs)
      have ih' := ih (fun y hy => hl y (List.mem_cons_of_mem x hy))
      rw [List.cons_append, storageUsage_cons, ih', hs]
      rw [if_pos (by simp [ht, hd, hdir])]
      simp only [List.length_cons]
      push_cast
      ring
  · intro hdel
    rw [storageUsage_cons, if_neg (by simp [hdel]), zero_add]

/-- A live record used to witness the C10 theorem. -/
def dupRecordA : FileRecord :=
  { id := 21, tenantId := 10, departmentId := some 20, parentPath := none,
    name := "x.txt", sizeBytes := 7, isDirectory := false, ownerId := some 5,
    visibility := "department", contentHash := some "ffee",
    storagePath := "10/20/ff/ffee", isDeleted := false, isLocked := false,
    lockedBy := none, lockRequiresRole := none, isImmutable := false }

/-- A second live record with the same content hash and size as `dupRecordA`
but a different identity. -/
def dupRecordB : FileRecord :=
  { dupRecordA with id := 22, name := "y.txt" }

/-- C10 witness: the theorem evaluated on two live records sharing one
content hash — the usage is twice the size of the (single) backend object. -/
theorem quota_counts_each_live_record_witness :
    storageUsage ([dupRecordA, dupRecordB] ++ []) 10 =
        (([dupRecordA, dupRecordB] : List FileRecord).length : Int) * dupRecordA.sizeBytes +
          storageUsage [] 10 ∧
    (dupRecordA.isDeleted = true →
      storageUsage (dupRecordA :: []) 10 = storageUsage [] 10) :=
  quota_counts_each_live_record [] 10 dupRecordA [dupRecordA, dupRecordB] (by decide)

/-! ## Share redemption (`download_shared_file`) -/

/-- The verified JWT claims a redeemer presents: subject, tenant and role. -/
structure Claims where
  sub : Nat
  tenantId : Nat
  role : String
  deriving Repr, DecidableEq

/-- Row of the `file_shares` table as read by `download_shared_file`. -/
structure Share where
  fileId : Nat
  tenantId : Nat
  createdBy : Nat
  isPublic : Bool
  expiresAt : Option Int
  isDirectory : Bool
  sharePolicy : Option String
  deriving Repr, DecidableEq

/-- Authorization outcome of a share redemption, before any bytes flow. -/
inductive ShareAuth where
  | gone
  | unauthorized
  | forbidden
  | notFound
  | allowed
  deriving Repr, DecidableEq

/-- The expiry check of `download_shared_file`:
expired when `expires_at` is set and lies strictly in the past. -/
def shareExpired (sh : Share) (now : Int) : Bool :=
  match sh.expiresAt with
  | some e => decide (e < now)
  | none => false

/-- The authorization phase of `download_shared_file`: expiry first; public
shares then require nothing further; non-public shares require a bearer token
(401 otherwise), a tenant match (403 otherwise), and — for the `permissioned`
policy, which is also the `COALESCE` default — a passing `can_access_file`
read decision; the `tenant_wide` policy skips the per-file check. Credentials
are modelled as the verified claims, `none` covering both a missing and an
invalid token. -/
def redeemShareAuth (sh : Share) (now : Int) (cred : Option Claims)
    (catalog : List FileRecord) (users : List (Nat × UserRow)) : ShareAuth :=
  if shareExpired sh now then ShareAuth.gone
  else if sh.isPublic then ShareAuth.allowed
  else
    match cred with
    | none => ShareAuth.unauthorized
    | some c =>
      if c.tenantId != sh.tenantId then ShareAuth.forbidden
      else if sh.sharePolicy.getD "permissioned" == "permissioned" then
        match canAccessFile catalog users sh.fileId sh.tenantId c.sub c.role "read" with
        | Except.error _ => ShareAuth.notFound
        | Except.ok true => ShareAuth.allowed
        | Except.ok false => ShareAuth.forbidden
      else ShareAuth.allowed

/-- C6: redemption of a public share is allowed exactly when the share is
unexpired — expiry is the only check, for ANY credentials including none; and
redemption of a non-public share under the `permissioned` policy is allowed
exactly when the redeemer presents valid credentials for the share's tenant
AND the access engine's read decision allows them on the underlying resource,
so a share cannot bypass department or private-file restrictions. -/
theorem share_redemption_policy
    (sh : Share) (now : Int) (cred : Option Claims) (catalog : List FileRecord)
    (users : List (Nat × UserRow)) :
    (sh.isPublic = true →
      (redeemShareAuth sh now cred catalog users = ShareAuth.allowed ↔
        shareExpired sh now = false)) ∧
    (sh.isPublic = false → sh.sharePolicy.getD "permissioned" = "permissioned" →
      shareExpired sh now = false →
      (redeemShareAuth sh now cred catalog users = ShareAuth.allowed ↔
        ∃ c, cred = some c ∧ c.tenantId = sh.tenantId ∧
          canAccessFile catalog users sh.fileId sh.tenantId c.sub c.role "read" =
            Except.ok true)) := by
  constructor
  · intro hpub
    by_cases hexp : shareExpired sh now = true
    · rw [redeemShareAuth.eq_def, if_pos hexp]
      constructor
      · intro h; exact ShareAuth.noConfusion h
      · intro h; rw [h] at hexp; exact Bool.noConfusion hexp
    · have hexp' : shareExpired sh now = false := Bool.not_eq_true _ ▸ eq_false_of_ne_true hexp
      rw [redeemShareAuth.eq_def, if_neg hexp, if_pos (by rw [hpub])]
      simp [hexp']
  · intro hpub hperm hexp
    cases cred with
    | none =>
      have hred : redeemShareAuth sh now none catalog users = ShareAuth.unauthorized := by
        simp [redeemShareAuth.eq_def, hexp, hpub]
      rw [hred]
      constructor
      · intro h; exact ShareAuth.noConfusion h
      · rintro ⟨c, hc, _⟩; exact Option.noConfusion hc
    | some c =>
      by_cases hct : c.tenantId = sh.tenantId
      · have hbe : (sh.sharePolicy.getD "permissioned" == "permissioned") = true := by
          rw [hperm]; rfl
        cases hacc : canAccessFile catalog users sh.fileId sh.tenantId c.sub c.role "read" with
        | error e =>
          have hred : redeemShareAuth sh now (some c) catalog users = ShareAuth.notFound := by
            simp [redeemShareAuth.eq_def, hexp, hpub, hct, hbe, hacc]
          rw [hred]
          constructor
          · intro h; exact ShareAuth.noConfusion h
          · rintro ⟨c2, hc2, _, hok⟩
            cases hc2
            rw [hacc] at hok
            exact Except.noConfusion hok
        | ok b =>
          cases b with
          | true =>
            have hred : redeemShareAuth sh now (some c) catalog users = ShareAuth.allowed := by
              simp [redeemShareAuth.eq_def, hexp, hpub, hct, hbe, hacc]
            rw [hred]
            constructor
            · intro _; exact ⟨c, rfl, hct, hacc⟩
            · intro _; rfl
          | false =>
            have hred : redeemShareAuth sh now (some c) catalog users = ShareAuth.forbidden := by
              simp [redeemShareAuth.eq_def, hexp, hpub, hct, hbe, hacc]
            rw [hred]
            constructor
            · intro h; exact ShareAuth.noConfusion h
            · rintro ⟨c2, hc2, _, hok⟩
              cases hc2
              rw [hacc] at hok
              simp at hok
      · have hred : redeemShareAuth sh now (some c) catalog users = ShareAuth.forbidden := by
          simp [redeemShareAuth.eq_def, hexp, hpub, bne_iff_ne, hct]
        rw [hred]
        constructor
        · intro h; exact ShareAuth.noConfusion h
        · rintro ⟨c2, hc2, hct2, _⟩
          cases hc2
          exact absurd hct2 hct

/-- A public share used to witness C6. -/
def pubShare : Share :=
  { fileId := 41, tenantId := 10, createdBy := 5, isPublic := true, expiresAt := none,
    isDirectory := false, sharePolicy := some "permissioned" }

/-- A non-public permissioned share used to witness C6. -/
def privShare : Share :=
  { pubShare with fileId := 42, isPublic := false }

/-- Credentials of an in-tenant admin redeemer used to witness C6. -/
def adminClaims : Claims := { sub := 7, tenantId := 10, role := "Admin" }

/-- C6 witness: the theorem evaluated on a concrete unexpired public share
(anonymous redeemer allowed) and a concrete permissioned share (in-tenant
redeemer passing the read decision allowed). -/
theorem share_redemption_policy_witness :
    redeemShareAuth pubShare 0 none [] [] = ShareAuth.allowed ∧
    redeemShareAuth privShare 0 (some adminClaims) [] [] = ShareAuth.allowed :=
  ⟨((share_redemption_policy pubShare 0 none [] []).1 rfl).mpr rfl,
   ((share_redemption_policy privShare 0 (some adminClaims) [] []).2 rfl rfl rfl).mpr
     ⟨adminClaims, rfl, rfl, rfl⟩⟩

/-! ## Directory packing (`download_folder_as_zip`) -/

/-- The `MAX_ZIP_SIZE_BYTES` constant: 500 MiB. -/
def maxZipSizeBytes : Int := 500 * 1024 * 1024

/-- The folder path built at the top of `download_folder_as_zip`. -/
def zipFolderPath (parentPath folderName : String) : String :=
  if parentPath == "" || parentPath == "/" then folderName
  else parentPath ++ "/" ++ folderName

/-- The descendants query of `download_folder_as_zip`: every live,
non-directory record of the tenant whose parent path is the folder path or
lies strictly below it. -/
def zipDescendants (catalog : List FileRecord) (tenant : Nat) (folderPath : String) :
    List FileRecord :=
  catalog.filter (fun r => r.tenantId == tenant && !r.isDeleted && !r.isDirectory &&
    ((r.parentPath == some folderPath) || underFolder folderPath r.parentPath))

/-- Splitting a character list at separator characters: the structural
counterpart of splitting a string on a character predicate. -/
def splitChars (p : Char → Bool) : List Char → List (List Char)
  | [] => [[]]
  | c :: cs =>
    if p c then [] :: splitChars p cs
    else
      match splitChars p cs with
      | [] => [[c]]
      | x :: xs => (c :: x) :: xs

/-- `sanitize_zip_path`: reject empty input, strip leading separators, drop
empty, dot and dot-dot components, reject an empty remainder and any result
that still looks absolute or carries a drive marker. -/
def sanitizeZipPath (path : String) : Option String :=
  if path == "" then none
  else
    let trimmed := path.toList.dropWhile (fun c => c == '/' || c == '\\')
    let parts := (splitChars (fun c => c == '/' || c == '\\') trimmed).filter
      (fun comp => !(comp.isEmpty || comp == ['.', '.'] || comp == ['.']))
    if parts.isEmpty then none
    else
      let sanitized := List.intercalate ['/'] parts
      if ['/'].isPrefixOf sanitized || sanitized.contains ':' then none
      else some (String.mk sanitized)

/-- The Rust `strip_prefix(pat).unwrap_or(s)` idiom. -/
def stripLeading (pat s : String) : String :=
  if pat.toList.isPrefixOf s.toList then s.drop pat.length else s

/-- The archive entry name computed per descendant by
`download_folder_as_zip` before sanitization. -/
def zipRelativePath (folderPath fileParent fileName : String) : String :=
  if fileParent == folderPath then fileName
  else
    let sub := String.mk ((stripLeading folderPath fileParent).toList.dropWhile (fun c => c == '/'))
    if sub == "" then fileName else sub ++ "/" ++ fileName

/-- Whether the pack aborted as too large, and the backend reads performed. -/
structure ZipResult where
  tooLarge : Bool
  backendReads : List String
  deriving Repr, DecidableEq

/-- The `download_folder_as_zip` helper: gather the live descendants, sum
their declared sizes, and abort with payload-too-large BEFORE any backend
download when the total exceeds `MAX_ZIP_SIZE_BYTES`; otherwise download each
descendant whose sanitized entry name is acceptable. -/
def downloadFolderAsZip (catalog : List FileRecord) (tenant : Nat)
    (folderName parentPath : String) : ZipResult :=
  let folderPath := zipFolderPath parentPath folderName
  let files := zipDescendants catalog tenant folderPath
  let totalSize := (files.map (fun r => r.sizeBytes)).sum
  if totalSize > maxZipSizeBytes then ⟨true, []⟩
  else
    ⟨false, (files.filter (fun r =>
        (sanitizeZipPath (zipRelativePath folderPath (r.parentPath.getD "") r.name)).isSome)).map
      (fun r => r.storagePath)⟩

/-- C8: the sum of the sizes of all live non-directory descendants is
compared against the 500 MiB maximum before any backend read: when the total
strictly exceeds the maximum the pack returns payload-too-large with ZERO
backend reads, and when the total is at most the maximum (including exactly
the maximum) the pack is not rejected as too large. -/
theorem zip_size_gate_before_reads
    (catalog : List FileRecord) (tenant : Nat) (folderName parentPath : String) :
    (((zipDescendants catalog tenant (zipFolderPath parentPath folderName)).map
        (fun r => r.sizeBytes)).sum > maxZipSizeBytes →
      downloadFolderAsZip catalog tenant folderName parentPath = ⟨true, []⟩) ∧
    (((zipDescendants catalog tenant (zipFolderPath parentPath folderName)).map
        (fun r => r.sizeBytes)).sum ≤ maxZipSizeBytes →
      (downloadFolderAsZip catalog tenant folderName parentPath).tooLarge = false) := by
  constructor
  · intro h
    simp only [downloadFolderAsZip]
    rw [if_pos h]
  · intro h
    simp only [downloadFolderAsZip]
    rw [if_neg (not_lt.mpr h)]

/-- A live descendant whose size is exactly the 500 MiB pack maximum. -/
def zipFileExact : FileRecord :=
  { id := 31, tenantId := 10, departmentId := some 20, parentPath := some "packdir",
    name := "big.bin", sizeBytes := 524288000, isDirectory := false, ownerId := some 5,
    visibility := "department", contentHash := some "aa00",
    storagePath := "10/20/aa/aa00", isDeleted := false, isLocked := false,
    lockedBy := none, lockRequiresRole := none, isImmutable := false }

/-- A live descendant one byte over the pack maximum. -/
def zipFileOver : FileRecord :=
  { zipFileExact with id := 32, sizeBytes := 524288001 }

/-- C8 witness: the theorem evaluated at the boundary — a pack one byte over
the maximum aborts with no reads, a pack of exactly the maximum passes the
gate. -/
theorem zip_size_gate_before_reads_witness :
    downloadFolderAsZip [zipFileOver] 10 "packdir" "" = ⟨true, []⟩ ∧
    (downloadFolderAsZip [zipFileExact] 10 "packdir" "").tooLarge = false :=
  ⟨(zip_size_gate_before_reads [zipFileOver] 10 "packdir" "").1 (by decide),
   (zip_size_gate_before_reads [zipFileExact] 10 "packdir" "").2 (by decide)⟩

/-! ## Restore (`restore_file`) -/

/-- The catalog updates of `restore_file`: flip `is_deleted` off on the row
(`WHERE id AND tenant_id`), then — for directories — on every direct child
(`parent_path = folder_path AND is_deleted = true`) and every nested
descendant (`parent_path LIKE folder_path slash percent AND is_deleted =
true`). -/
def restoreApply (catalog : List FileRecord) (tenant fid : Nat) (f : FileRecord) :
    List FileRecord :=
  let cat1 := catalog.map (fun r =>
    if r.id == fid && r.tenantId == tenant then { r with isDeleted := false } else r)
  if f.isDirectory then
    let folderPath := folderPathOf f.parentPath f.name
    let cat2 := cat1.map (fun r =>
      if r.tenantId == tenant && r.parentPath == some folderPath && r.isDeleted then
        { r with isDeleted := false } else r)
    cat2.map (fun r =>
      if r.tenantId == tenant && underFolder folderPath r.parentPath && r.isDeleted then
        { r with isDeleted := false } else r)
  else cat1

/-- The `restore_file` handler: the ONLY authorization is the tenant check
(`auth.role != "SuperAdmin" && auth.tenant_id != tenant_id` forbids);
afterwards the trashed record is looked up by id and tenant and restored with
its descendants — no owner, visibility, department, lock or access-engine
check, and the requesting user's identity is never read. -/
def restoreFile (catalog : List FileRecord) (authTenant : Nat) (authRole : String)
    (tenant fid : Nat) : Except Unit (List FileRecord) :=
  if authRole != "SuperAdmin" && authTenant != tenant then Except.error ()
  else
    match findTrashed catalog fid tenant with
    | none => Except.error ()
    | some f => Except.ok (restoreApply catalog tenant fid f)

/-- Membership in a restore-style map: an element either got its
`is_deleted` flag cleared, or is an untouched member whose condition failed. -/
theorem mem_restoreMap (cond : FileRecord → Bool) (l : List FileRecord) (r : FileRecord)
    (hr : r ∈ l.map (fun x => if cond x then { x with isDeleted := false } else x)) :
    (∃ x, x ∈ l ∧ cond x = true ∧ r = { x with isDeleted := false }) ∨
      (r ∈ l ∧ cond r = false) := by
  obtain ⟨x, hx, rfl⟩ := List.mem_map.mp hr
  by_cases h : cond x = true
  · exact Or.inl ⟨x, hx, h, by rw [if_pos h]⟩
  · right
    rw [if_neg h]
    refine ⟨hx, ?_⟩
    revert h
    cases cond x <;> simp

/-- C9: the only authorization `restore_file` enforces is tenant membership.
Whenever the requester's tenant equals the record's tenant (or the requester
is `SuperAdmin`) and a trashed record with the given id exists in the tenant,
the restore succeeds — for ANY role, for private records, locked records and
records owned by someone else (the theorem constrains none of those fields,
and the embedding takes no user id at all) — the record comes back live, and
when it is a directory so does every descendant under its path; a requester
from another tenant who is not `SuperAdmin` is refused. -/
theorem restore_checks_only_tenant
    (catalog : List FileRecord) (authTenant : Nat) (authRole : String) (tenant fid : Nat)
    (f : FileRecord)
    (hfind : findTrashed catalog fid tenant = some f) :
    ((authRole = "SuperAdmin" ∨ authTenant = tenant) →
      ∃ cat2, restoreFile catalog authTenant authRole tenant fid = Except.ok cat2 ∧
        (∀ r ∈ cat2, r.id = fid → r.tenantId = tenant → r.isDeleted = false) ∧
        (f.isDirectory = true →
          ∀ r ∈ cat2, r.tenantId = tenant →
            (r.parentPath = some (folderPathOf f.parentPath f.name) ∨
              underFolder (folderPathOf f.parentPath f.name) r.parentPath = true) →
            r.isDeleted = false)) ∧
    (authRole ≠ "SuperAdmin" → authTenant ≠ tenant →
      restoreFile catalog authTenant authRole tenant fid = Except.error ()) := by
  constructor
  · intro hauth
    have hcond : ¬((authRole != "SuperAdmin" && authTenant != tenant) = true) := by
      rcases hauth with h | h <;> simp [h]
    have hok : restoreFile catalog authTenant authRole tenant fid =
        Except.ok (restoreApply catalog tenant fid f) := by
      rw [restoreFile, if_neg hcond, hfind]
    refine ⟨restoreApply catalog tenant fid f, hok, ?_, ?_⟩
    · intro r hr hid htn
      rw [restoreApply] at hr
      by_cases hdir : f.isDirectory = true
      · rw [if_pos hdir] at hr
        rcases mem_restoreMap _ _ _ hr with ⟨x, _, _, rfl⟩ | ⟨hr2, _⟩
        · rfl
        · rcases mem_restoreMap _ _ _ hr2 with ⟨x, _, _, rfl⟩ | ⟨hr1, _⟩
          · rfl
          · rcases mem_restoreMap _ _ _ hr1 with ⟨x, _, _, rfl⟩ | ⟨_, hc1⟩
            · rfl
            · rw [hid, htn] at hc1
              simp at hc1
      · rw [if_neg hdir] at hr
        rcases mem_restoreMap _ _ _ hr with ⟨x, _, _, rfl⟩ | ⟨_, hc1⟩
        · rfl
        · rw [hid, htn] at hc1
          simp at hc1
    · intro hdir r hr htn hpath
      rw [restoreApply, if_pos hdir] at hr
      rcases mem_restoreMap _ _ _ hr with ⟨x, _, _, rfl⟩ | ⟨hr2, hc3⟩
      · rfl
      · rcases hpath with hexact | hunder
        · rcases mem_restoreMap _ _ _ hr2 with ⟨x, _, _, rfl⟩ | ⟨_, hc2⟩
          · rfl
          · rw [htn, hexact] at hc2
            simp at hc2
            exact hc2
        · rw [htn, hunder] at hc3
          simp at hc3
          exact hc3
  · intro h1 h2
    rw [restoreFile, if_pos (by simp [bne_iff_ne, h1, h2])]

/-- A trashed private record, locked by and owned by another user, used to
witness C9. -/
def trashedPrivateRecord : FileRecord :=
  { id := 51, tenantId := 10, departmentId := some 20, parentPath := none,
    name := "secret.txt", sizeBytes := 4, isDirectory := false, ownerId := some 5,
    visibility := "private", contentHash := some "beef",
    storagePath := "10/20/be/beef", isDeleted := true, isLocked := true,
    lockedBy := some 5, lockRequiresRole := some "SuperAdmin", isImmutable := false }

/-- C9 witness: an ordinary `Employee` of the tenant restores another user's
private, locked record. -/
theorem restore_checks_only_tenant_witness :
    ∃ cat2, restoreFile [trashedPrivateRecord] 10 "Employee" 10 51 = Except.ok cat2 ∧
      (∀ r ∈ cat2, r.id = 51 → r.tenantId = 10 → r.isDeleted = false) ∧
      (trashedPrivateRecord.isDirectory = true →
        ∀ r ∈ cat2, r.tenantId = 10 →
          (r.parentPath = some (folderPathOf trashedPrivateRecord.parentPath
              trashedPrivateRecord.name) ∨
            underFolder (folderPathOf trashedPrivateRecord.parentPath
              trashedPrivateRecord.name) r.parentPath = true) →
          r.isDeleted = false) :=
  (restore_checks_only_tenant [trashedPrivateRecord] 10 "Employee" 10 51
      trashedPrivateRecord rfl).1 (Or.inr rfl)

/-! ## Rename (`rename_file`) and move (`move_file`) -/

/-- Errors surfaced by the rename and move handlers. -/
inductive MutError where
  | forbidden
  | notFound
  | badRequest
  | duplicate
  deriving Repr, DecidableEq

/-- New catalog state plus every operation issued against the object backend
(keys that were put, deleted, copied or renamed there). -/
structure MutationResult where
  catalog : List FileRecord
  backendOps : List String
  deriving Repr

/-- A SQL `UPDATE ... SET ... WHERE cond` over the catalog. -/
def mapWhere (cond : FileRecord → Bool) (upd : FileRecord → FileRecord)
    (catalog : List FileRecord) : List FileRecord :=
  catalog.map (fun r => if cond r then upd r else r)

/-- The NULL-aware parent-path comparison used by the duplicate checks:
`(($x IS NULL AND parent_path IS NULL) OR parent_path = $x)`. -/
def samePath (a b : Option String) : Bool :=
  match a, b with
  | none, none => true
  | some x, some y => x == y
  | _, _ => false

/-- The duplicate-name probe shared by `rename_file` and `move_file`: a live
record of the tenant, other than the one being changed, with the same name in
the same parent path. -/
def hasDuplicateName (catalog : List FileRecord) (tenant : Nat) (name : String) (fid : Nat)
    (pp : Option String) : Bool :=
  catalog.any (fun r => r.tenantId == tenant && r.name == name && !r.isDeleted &&
    r.id != fid && samePath r.parentPath pp)

/-- `new_name.split(slash).last().unwrap_or(new_name)`: the suffix after the
last slash (the whole name when there is no slash), computed structurally on
the character list. -/
def extractBaseName (newName : String) : String :=
  String.mk ((newName.toList.reverse.takeWhile (fun c => c != '/')).reverse)

/-- The filename validity check of `rename_file`: nonempty, no NUL byte, not
a dot or dot-dot. -/
def validFileName (s : String) : Bool :=
  !(s == "" || s.toList.contains (Char.ofNat 0) || s == "." || s == "..")

/-- Helper for Rust `replacen(pat, repl, 1)` on character lists: replace the
leftmost occurrence of `pat`, leaving the input unchanged when `pat` does not
occur (`pat` is a nonempty folder path at every call site). -/
def replaceFirstChars (pat repl : List Char) : List Char → List Char
  | [] => []
  | c :: cs =>
    if pat.isPrefixOf (c :: cs) then repl ++ (c :: cs).drop pat.length
    else c :: replaceFirstChars pat repl cs

/-- Rust `replacen(pat, repl, 1)`: replace the leftmost occurrence of `pat`. -/
def replaceFirstOccurrence (s pat repl : String) : String :=
  String.mk (replaceFirstChars pat.toList repl.toList s.toList)

/-- The nested-descendant rewrite of `rename_file`: the first occurrence of
the old folder path inside the child's parent path is replaced. -/
def renameNestedUpdate (oldPath newPath : String) (r : FileRecord) : FileRecord :=
  { r with parentPath := some (replaceFirstOccurrence (r.parentPath.getD "") oldPath newPath) }

/-- The catalog updates of `rename_file`: rename the row, and for a
directory rewrite every child's parent path (exact match first, then the
nested descendants with a first-occurrence replacement). Only `name` and
`parent_path` change — never `storage_path`. -/
def renameApply (catalog : List FileRecord) (tenant fid : Nat) (f : FileRecord)
    (newFilename : String) : List FileRecord :=
  let cat1 := mapWhere (fun r => r.id == fid && r.tenantId == tenant)
    (fun r => { r with name := newFilename }) catalog
  if f.isDirectory then
    let oldPath := folderPathOf f.parentPath f.name
    let newPath := folderPathOf f.parentPath newFilename
    let cat2 := mapWhere (fun r => r.tenantId == tenant && r.parentPath == some oldPath)
      (fun r => { r with parentPath := some newPath }) cat1
    mapWhere (fun r => r.tenantId == tenant && underFolder oldPath r.parentPath)
      (renameNestedUpdate oldPath newPath) cat2
  else cat1

/-- The `rename_file` handler: tenant check, live lookup, write access,
lock and immutability gates, base-name extraction and validity, duplicate
probe, then the metadata-only update. No backend operation is ever issued. -/
def renameFile (catalog : List FileRecord) (users : List (Nat × UserRow))
    (authTenant : Nat) (authRole : String) (tenant uid fid : Nat) (newName : String) :
    Except MutError MutationResult :=
  if authRole != "SuperAdmin" && authTenant != tenant then Except.error MutError.forbidden
  else
    match findLiveFile catalog fid tenant with
    | none => Except.error MutError.notFound
    | some f =>
      match canAccessFile catalog users fid tenant uid authRole "write" with
      | Except.error _ => Except.error MutError.notFound
      | Except.ok false => Except.error MutError.forbidden
      | Except.ok true =>
        if f.isLocked then Except.error MutError.forbidden
        else if f.isImmutable then Except.error MutError.forbidden
        else if !validFileName (extractBaseName newName) then Except.error MutError.badRequest
        else if hasDuplicateName catalog tenant (extractBaseName newName) fid f.parentPath then
          Except.error MutError.duplicate
        else Except.ok ⟨renameApply catalog tenant fid f (extractBaseName newName), []⟩

/-- Path join used by `move_file` for the old and new folder paths (no
empty-parent special case, unlike `rename_file`). -/
def moveJoin (pp : Option String) (name : String) : String :=
  match pp with
  | some p => p ++ "/" ++ name
  | none => name

/-- The visibility normalization of the handlers: anything but `private`
becomes `department`. -/
def normalizeVisibility (v : String) : String :=
  if v == "private" then "private" else "department"

/-- The cross-department gate of `move_file`: moving to another department is
free for Admin/SuperAdmin; otherwise the user's own department row, when
present, must equal the target. -/
def crossDeptForbidden (users : List (Nat × UserRow)) (uid : Nat) (role : String)
    (targetDept currentDept : Option Nat) : Bool :=
  if targetDept == currentDept then false
  else if role == "SuperAdmin" || role == "Admin" then false
  else
    match users.find? (fun p => p.1 == uid) with
    | some p => p.2.departmentId != targetDept
    | none => false

/-- Resolution of the target folder in `move_file`: no target means the root
(`None` parent path); otherwise the live directory row is looked up and its
effective path is the new parent path (outer `none` = target folder absent). -/
def resolveTargetPath (catalog : List FileRecord) (tenant : Nat) (targetParent : Option Nat) :
    Option (Option String) :=
  match targetParent with
  | none => some none
  | some tid =>
    (catalog.find? (fun r => r.id == tid && r.tenantId == tenant && r.isDirectory &&
      !r.isDeleted)).map (fun fo => some (folderPathOf fo.parentPath fo.name))

/-- The `CASE WHEN private THEN mover ELSE owner END` owner rule of
`move_file`. -/
def moveOwner (targetVis : String) (uid : Nat) (r : FileRecord) : Option Nat :=
  if targetVis == "private" then some uid else r.ownerId

/-- The `SET` clause of `move_file` on the moved row itself. -/
def moveRowUpdate (newParentPath : Option String) (targetDept : Option Nat) (targetVis : String) (uid : Nat) (r : FileRecord) : FileRecord :=
  { r with parentPath := newParentPath, departmentId := targetDept, visibility := targetVis, ownerId := moveOwner targetVis uid r }

/-- The `SET` clause of `move_file` on a direct child. -/
def moveChildUpdate (newPath targetVis : String) (uid : Nat) (r : FileRecord) : FileRecord :=
  { r with parentPath := some newPath, visibility := targetVis, ownerId := moveOwner targetVis uid r }

/-- The `SET` clause of `move_file` on a nested descendant: the new path plus
the suffix of the old parent path past the old folder path
(`SUBSTRING(parent_path FROM LENGTH(old) + 1)`). -/
def moveNestedUpdate (oldPath newPath targetVis : String) (uid : Nat) (r : FileRecord) : FileRecord :=
  { r with parentPath := some (newPath ++ (r.parentPath.getD "").drop oldPath.length), visibility := targetVis, ownerId := moveOwner targetVis uid r }

/-- The catalog updates of `move_file`: rewrite the row's parent path,
department and visibility (owner becomes the mover when moving to private),
and for a directory rewrite every live child and nested descendant the same
way. Only metadata changes — never `storage_path`. -/
def moveApply (catalog : List FileRecord) (tenant uid fid : Nat) (f : FileRecord)
    (newParentPath : Option String) (targetDept : Option Nat) (targetVis : String) :
    List FileRecord :=
  let cat1 := mapWhere (fun r => r.id == fid && r.tenantId == tenant)
    (moveRowUpdate newParentPath targetDept targetVis uid) catalog
  if f.isDirectory then
    let oldPath := moveJoin f.parentPath f.name
    let newPath := moveJoin newParentPath f.name
    let cat2 := mapWhere
      (fun r => r.tenantId == tenant && r.parentPath == some oldPath && !r.isDeleted)
      (moveChildUpdate newPath targetVis uid) cat1
    mapWhere (fun r => r.tenantId == tenant && underFolder oldPath r.parentPath && !r.isDeleted)
      (moveNestedUpdate oldPath newPath targetVis uid) cat2
  else cat1

/-- The `move_file` handler: tenant check, write access, live lookup, lock
gate, target department and visibility resolution, cross-department gate,
target folder resolution, duplicate probe, then the metadata-only update. No
backend operation is ever issued. -/
def moveFile (catalog : List FileRecord) (users : List (Nat × UserRow))
    (authTenant : Nat) (authRole : String) (tenant uid fid : Nat)
    (targetParent : Option Nat) (targetDeptInput : Option (Option Nat))
    (targetVisInput : Option String) : Except MutError MutationResult :=
  if authRole != "SuperAdmin" && authTenant != tenant then Except.error MutError.forbidden
  else
    match canAccessFile catalog users fid tenant uid authRole "write" with
    | Except.error _ => Except.error MutError.notFound
    | Except.ok false => Except.error MutError.forbidden
    | Except.ok true =>
      match findLiveFile catalog fid tenant with
      | none => Except.error MutError.notFound
      | some f =>
        if f.isLocked then Except.error MutError.forbidden
        else if crossDeptForbidden users uid authRole (targetDeptInput.getD f.departmentId) f.departmentId then
          Except.error MutError.forbidden
        else
          match resolveTargetPath catalog tenant targetParent with
          | none => Except.error MutError.notFound
          | some newParentPath =>
            if hasDuplicateName catalog tenant f.name fid newParentPath then
              Except.error MutError.duplicate
            else Except.ok ⟨moveApply catalog tenant uid fid f newParentPath (targetDeptInput.getD f.departmentId) (normalizeVisibility (targetVisInput.getD f.visibility)), []⟩

/-- The (record id, storage key) projection of the catalog. -/
def storageKeys (catalog : List FileRecord) : List (Nat × String) :=
  catalog.map (fun r => (r.id, r.storagePath))

/-- An `UPDATE` whose `SET` clause touches neither `id` nor `storage_path`
leaves every record's storage key unchanged. -/
theorem storageKeys_mapWhere (cond : FileRecord → Bool) (upd : FileRecord → FileRecord)
    (catalog : List FileRecord)
    (hupd : ∀ r, (upd r).id = r.id ∧ (upd r).storagePath = r.storagePath) :
    storageKeys (mapWhere cond upd catalog) = storageKeys catalog := by
  induction catalog with
  | nil => rfl
  | cons x xs ih =>
    simp only [mapWhere, storageKeys, List.map_cons] at ih ⊢
    rw [ih]
    by_cases h : cond x = true
    · rw [if_pos h, (hupd x).1, (hupd x).2]
    · rw [if_neg h]

/-- The rename update preserves every storage key. -/
theorem renameApply_keys (catalog : List FileRecord) (tenant fid : Nat) (f : FileRecord)
    (newFilename : String) :
    storageKeys (renameApply catalog tenant fid f newFilename) = storageKeys catalog := by
  simp only [renameApply]
  by_cases hdir : f.isDirectory = true
  · rw [if_pos hdir, storageKeys_mapWhere, storageKeys_mapWhere, storageKeys_mapWhere]
    · exact fun r => ⟨rfl, rfl⟩
    · exact fun r => ⟨rfl, rfl⟩
    · exact fun r => ⟨rfl, rfl⟩
  · rw [if_neg hdir, storageKeys_mapWhere]
    exact fun r => ⟨rfl, rfl⟩

/-- The move update preserves every storage key. -/
theorem moveApply_keys (catalog : List FileRecord) (tenant uid fid : Nat) (f : FileRecord)
    (newParentPath : Option String) (targetDept : Option Nat) (targetVis : String) :
    storageKeys (moveApply catalog tenant uid fid f newParentPath targetDept targetVis) =
      storageKeys catalog := by
  simp only [moveApply]
  by_cases hdir : f.isDirectory = true
  · rw [if_pos hdir, storageKeys_mapWhere, storageKeys_mapWhere, storageKeys_mapWhere]
    · exact fun r => ⟨rfl, rfl⟩
    · exact fun r => ⟨rfl, rfl⟩
    · exact fun r => ⟨rfl, rfl⟩
  · rw [if_neg hdir, storageKeys_mapWhere]
    exact fun r => ⟨rfl, rfl⟩

/-- C7: a successful rename and a successful move — of a file or of a
directory, descendant rewrites included — issue NO operation against the
object backend, and every record keeps its storage key: only catalog metadata
changes. -/
theorem rename_move_no_backend_ops
    (catalog : List FileRecord) (users : List (Nat × UserRow)) (authTenant : Nat)
    (authRole : String) (tenant uid fid : Nat) (newName : String)
    (targetParent : Option Nat) (targetDeptInput : Option (Option Nat))
    (targetVisInput : Option String) :
    (∀ out, renameFile catalog users authTenant authRole tenant uid fid newName =
        Except.ok out →
      out.backendOps = [] ∧ storageKeys out.catalog = storageKeys catalog) ∧
    (∀ out, moveFile catalog users authTenant authRole tenant uid fid targetParent
        targetDeptInput targetVisInput = Except.ok out →
      out.backendOps = [] ∧ storageKeys out.catalog = storageKeys catalog) := by
  constructor
  · intro out hout
    rw [renameFile.eq_def] at hout
    repeat' split at hout
    all_goals first
      | exact Except.noConfusion hout
      | (injection hout with h
         subst h
         exact ⟨rfl, renameApply_keys _ _ _ _ _⟩)
  · intro out hout
    rw [moveFile.eq_def] at hout
    repeat' split at hout
    all_goals first
      | exact Except.noConfusion hout
      | (injection hout with h
         subst h
         exact ⟨rfl, moveApply_keys _ _ _ _ _ _ _ _⟩)

/-- A live, unlocked file used to witness the rename half of C7. -/
def renameTarget : FileRecord :=
  { id := 61, tenantId := 10, departmentId := none, parentPath := none,
    name := "old.txt", sizeBytes := 4, isDirectory := false, ownerId := some 7,
    visibility := "department", contentHash := some "cafe",
    storagePath := "10/private/ca/cafe", isDeleted := false, isLocked := false,
    lockedBy := none, lockRequiresRole := none, isImmutable := false }

/-- A live, unlocked file used to witness the move half of C7. -/
def moveTarget : FileRecord :=
  { id := 62, tenantId := 10, departmentId := some 20, parentPath := none,
    name := "m.txt", sizeBytes := 4, isDirectory := false, ownerId := some 7,
    visibility := "department", contentHash := some "dead",
    storagePath := "10/20/de/dead", isDeleted := false, isLocked := false,
    lockedBy := none, lockRequiresRole := none, isImmutable := false }

/-- The live destination folder for the move witness. -/
def destFolder : FileRecord :=
  { id := 63, tenantId := 10, departmentId := some 20, parentPath := none,
    name := "dest", sizeBytes := 0, isDirectory := true, ownerId := some 7,
    visibility := "department", contentHash := none, storagePath := "",
    isDeleted := false, isLocked := false, lockedBy := none,
    lockRequiresRole := none, isImmutable := false }

/-- C7 witness: the theorem evaluated on a concrete successful rename and a
concrete successful move into a folder — no backend operations, storage keys
unchanged. -/
theorem rename_move_no_backend_ops_witness :
    ((⟨renameApply [renameTarget] 10 61 renameTarget "renamed.txt", []⟩ :
        MutationResult).backendOps = [] ∧
      storageKeys (⟨renameApply [renameTarget] 10 61 renameTarget "renamed.txt", []⟩ :
        MutationResult).catalog = storageKeys [renameTarget]) ∧
    ((⟨moveApply [moveTarget, destFolder] 10 7 62 moveTarget (some "dest") (some 20)
          "department", []⟩ : MutationResult).backendOps = [] ∧
      storageKeys (⟨moveApply [moveTarget, destFolder] 10 7 62 moveTarget (some "dest")
          (some 20) "department", []⟩ : MutationResult).catalog =
        storageKeys [moveTarget, destFolder]) :=
  ⟨(rename_move_no_backend_ops [renameTarget] [(7, ⟨none, none⟩)] 10 "Employee" 10 7 61
      "renamed.txt" none none none).1
      ⟨renameApply [renameTarget] 10 61 renameTarget "renamed.txt", []⟩ rfl,
   (rename_move_no_backend_ops [moveTarget, destFolder] [(7, ⟨some 20, none⟩)] 10 "Employee"
      10 7 62 "unused" (some 63) none none).2
      ⟨moveApply [moveTarget, destFolder] 10 7 62 moveTarget (some "dest") (some 20)
        "department", []⟩ rfl⟩

end ClovaLink
